import Mathlib

/-!
A verification development for the core of the `go-pipeline` batching library.

The definitions below are a shallow embedding of the current-generation
implementation: the event loop `performLoop`, the flush dispatcher, the
lazily initialized error channel, the run lifecycle guard, the dynamic
parameters, and the two batch containers (ordered and deduplicated).
Concurrency is resolved into an explicit event sequence consumed by the
single-consumer loop; channels become buffers, contexts become tags on the
recorded flush calls, and machine integers become `Nat`/`Int` with explicit
wrap-around where it matters.
-/

namespace GoPipeline

/-- Go `time.Duration`, a signed 64-bit count of nanoseconds. -/
abbrev Duration := Int

/-- `time.Millisecond` expressed in nanoseconds. -/
def millisecond : Duration := 1000000

/-- Modelled from the spec: the sentinel error values of the library
(`ErrContextIsClosed`, `ErrContextDrained`, `ErrAlreadyRunning`,
`ErrChannelIsClosed`, `ErrPerformLoopError`; the `errors.New` declarations of
the current generation are not under `src/`, only their uses in
`src/unnamed/part_004`), together with opaque user flush errors and the Go
standard library combinator `errors.Join` of two errors. -/
inductive GoError where
  | contextIsClosed
  | contextDrained
  | alreadyRunning
  | channelIsClosed
  | performLoopError
  | userError (code : Nat)
  | joined (a b : GoError)
  deriving DecidableEq, Repr

/-- Go `errors.Is err target` for sentinel targets over the error trees built
from sentinels and `errors.Join`: a joined error matches a target iff it is
the target itself or one of its two children matches. -/
def errorsIs : GoError → GoError → Bool
  | .joined a b, t => (GoError.joined a b == t) || errorsIs a t || errorsIs b t
  | e, t => e == t

/-- The configuration fields read by the current-generation `PipelineImpl`
(`src/unnamed/part_004`: `NewPipelineImpl` and `performLoop`). The struct
declaration of this generation is not itself under `src/`; the field set is
exactly the one dereferenced there (`BufferSize`, `FlushSize`,
`FlushInterval`, `DrainOnCancel`, `DrainGracePeriod`,
`FinalFlushOnCloseTimeout`, `MaxConcurrentFlushes`), spec §4.1. -/
structure PipelineConfig where
  BufferSize : Nat
  FlushSize : Nat
  FlushInterval : Duration
  DrainOnCancel : Bool
  DrainGracePeriod : Duration
  FinalFlushOnCloseTimeout : Duration
  MaxConcurrentFlushes : Nat
  deriving DecidableEq, Repr

/-- The `DataProcessor` capability set consumed by `performLoop`
(`src/unnamed/part_011` interface, implementations in
`src/v2/pipeline_standard.go`, `src/pipeline_deduplication.go`,
`src/unnamed/part_001`). `isBatchFull` receives the flush size the concrete
processor reads at check time (`p.config.FlushSize` for the old generation,
`p.CurrentFlushSize()` for the current one). -/
structure DataProcessor (T B : Type) where
  initBatchData : B
  addToBatch : B → T → B
  isBatchFull : Nat → B → Bool
  isBatchEmpty : B → Bool

/-- The ordered (standard) batch container over growable slices:
`initBatchData` is `make([]T, 0)`, `addToBatch` is `append`, `isBatchFull`
compares the length with the flush size, `isBatchEmpty` is `len < 1`
(`src/v2/pipeline_standard.go` lines 57-97). -/
def standardProcessor (T : Type) : DataProcessor T (List T) where
  initBatchData := []
  addToBatch b x := b ++ [x]
  isBatchFull n b := decide (b.length ≥ n)
  isBatchEmpty b := decide (b.length < 1)

/-- Go map assignment `m[k] = v` on an association-list view of
`map[string]T`: if the key is present its binding is overwritten in place,
otherwise the pair is inserted. -/
def mapAssign {T : Type} (m : List (String × T)) (k : String) (v : T) :
    List (String × T) :=
  if m.any (fun p => p.1 == k) then
    m.map (fun p => if p.1 == k then (k, v) else p)
  else m ++ [(k, v)]

/-- The deduplicated batch container over `map[string]T`:
`addToBatch` performs `bd[data.GetKey()] = data`
(`src/pipeline_deduplication.go` lines 78-113). -/
def dedupProcessor (T : Type) (getKey : T → String) :
    DataProcessor T (List (String × T)) where
  initBatchData := []
  addToBatch b x := mapAssign b (getKey x) x
  isBatchFull n b := decide (b.length ≥ n)
  isBatchEmpty b := decide (b.length < 1)

/-- The context under which a flush call runs: the loop's parent context, a
fresh `context.Background()`, a `context.WithTimeout(Background, d)` used by
the final flush on channel close, or the independent drain context with its
grace period used by the cancel-drain path. -/
inductive CtxKind where
  | parent
  | background
  | closeTimeout (d : Duration)
  | drain (grace : Duration)
  deriving DecidableEq, Repr

/-- One recorded call to `doFlush`: the context it was given, whether it was
dispatched asynchronously, and the batch contents it received. -/
structure FlushCall (B : Type) where
  ctx : CtxKind
  async : Bool
  batch : B
  deriving DecidableEq, Repr

/-- The state threaded through one run of `performLoop`
(`src/unnamed/part_004` lines 158-266): the live batch, the trace of
dispatched flushes, the dynamic parameters, and the interval timer described
by the duration it was last armed with and the logical step at which it was
armed (`stepIdx` counts processed loop events). -/
structure LoopState (B : Type) where
  batch : B
  flushes : List (FlushCall B)
  currFlushSize : Nat
  currFlushInterval : Duration
  timerInterval : Duration
  timerArmedAt : Nat
  stepIdx : Nat
  deriving DecidableEq, Repr

/-- The five events the loop's `select` can observe: an item received from
the data channel, the data channel observed closed, the timer firing, a
nudge, and cancellation of the parent context carrying the items still
buffered in the data channel at that instant. -/
inductive Event (T : Type) where
  | recv (x : T)
  | closed
  | timerFire
  | nudge
  | cancel (buffered : List T)
  deriving DecidableEq, Repr

/-- Events on which `performLoop` returns. -/
def isTerminal : Event T → Bool
  | .closed => true
  | .cancel _ => true
  | _ => false

/-- The timer re-arm value: the current interval, clamped to 50ms when it is
zero or negative (`src/unnamed/part_004` lines 196-199 and 209-211). -/
def clampInterval (d : Duration) : Duration :=
  if d ≤ 0 then 50 * millisecond else d

/-- The drain grace period: `DrainGracePeriod`, or 100ms when unset or
non-positive (`src/unnamed/part_004` lines 229-232). -/
def graceOf (cfg : PipelineConfig) : Duration :=
  if cfg.DrainGracePeriod ≤ 0 then 100 * millisecond else cfg.DrainGracePeriod

/-- The context used for the final flush after channel close: a deadline of
`now + FinalFlushOnCloseTimeout` when that timeout is positive, otherwise an
uncanceled background context (`src/unnamed/part_004` lines 170-179). -/
def closeCtx (cfg : PipelineConfig) : CtxKind :=
  if 0 < cfg.FinalFlushOnCloseTimeout then
    CtxKind.closeTimeout cfg.FinalFlushOnCloseTimeout
  else CtxKind.background

/-- The non-blocking drain of the cancel path (`src/unnamed/part_004`
lines 237-254): consume the already-buffered items into the batch and emit a
synchronous flush under the drain context each time the batch fills; stop
when no buffered item is immediately available. Returns the leftover batch
and the flush calls emitted mid-drain. -/
def drainLoop (P : DataProcessor T B) (grace : Duration) (n : Nat) :
    List T → B → B × List (FlushCall B)
  | [], b => (b, [])
  | v :: rest, b =>
    let b1 := P.addToBatch b v
    if P.isBatchFull n b1 then
      let r := drainLoop P grace n rest P.initBatchData
      (r.1, ⟨.drain grace, false, b1⟩ :: r.2)
    else drainLoop P grace n rest b1

/-- Outcome of consuming loop events: still blocked in the `select` with a
given state, or returned from `performLoop` with a given error value. -/
inductive StepResult (B : Type) where
  | running (s : LoopState B)
  | finished (err : Option GoError) (s : LoopState B)
  deriving DecidableEq, Repr

/-- The state carried by a step result. -/
def stepState : StepResult B → LoopState B
  | .running s => s
  | .finished _ s => s

/-- One iteration of the `select` in `performLoop`
(`src/unnamed/part_004` lines 164-266), acting on one observed event.
* item received: append; when the batch is full, dispatch a flush under the
  parent context with the run's async flag and start a fresh batch; the
  timer is not touched;
* channel closed: when the batch is non-empty, one synchronous final flush
  under `closeCtx`; return `nil`;
* timer fired: flush a non-empty batch under the parent context, then re-arm
  the timer with the clamped current interval;
* nudge: re-arm the timer only;
* context canceled: without `DrainOnCancel` return `ErrContextIsClosed`
  immediately; with it, drain the buffered items with synchronous flushes
  under the drain context, flush a non-empty leftover batch, and return
  `errors.Join(ErrContextIsClosed, ErrContextDrained)`. -/
def loopStep (P : DataProcessor T B) (cfg : PipelineConfig) (async : Bool) :
    Event T → LoopState B → StepResult B
  | .recv x, s =>
    let b := P.addToBatch s.batch x
    if P.isBatchFull s.currFlushSize b then
      .running { s with batch := P.initBatchData,
                        flushes := s.flushes ++ [⟨.parent, async, b⟩],
                        stepIdx := s.stepIdx + 1 }
    else
      .running { s with batch := b, stepIdx := s.stepIdx + 1 }
  | .closed, s =>
    if P.isBatchEmpty s.batch then
      .finished none { s with stepIdx := s.stepIdx + 1 }
    else
      .finished none { s with flushes := s.flushes ++ [⟨closeCtx cfg, false, s.batch⟩],
                              stepIdx := s.stepIdx + 1 }
  | .timerFire, s =>
    let s1 :=
      if P.isBatchEmpty s.batch then s
      else { s with batch := P.initBatchData,
                    flushes := s.flushes ++ [⟨.parent, async, s.batch⟩] }
    .running { s1 with timerInterval := clampInterval s1.currFlushInterval,
                       timerArmedAt := s.stepIdx + 1,
                       stepIdx := s.stepIdx + 1 }
  | .nudge, s =>
    .running { s with timerInterval := clampInterval s.currFlushInterval,
                      timerArmedAt := s.stepIdx + 1,
                      stepIdx := s.stepIdx + 1 }
  | .cancel buffered, s =>
    if cfg.DrainOnCancel then
      let grace := graceOf cfg
      let r := drainLoop P grace s.currFlushSize buffered s.batch
      let finalFs : List (FlushCall B) :=
        if P.isBatchEmpty r.1 then [] else [⟨.drain grace, false, r.1⟩]
      .finished (some (.joined .contextIsClosed .contextDrained))
        { s with batch := r.1,
                 flushes := s.flushes ++ r.2 ++ finalFs,
                 stepIdx := s.stepIdx + 1 }
    else
      .finished (some .contextIsClosed) { s with stepIdx := s.stepIdx + 1 }

/-- Consume a sequence of loop events until the loop returns or the events
run out (the loop then still blocks in its `select`). -/
def runLoop (P : DataProcessor T B) (cfg : PipelineConfig) (async : Bool) :
    List (Event T) → LoopState B → StepResult B
  | [], s => .running s
  | e :: rest, s =>
    match loopStep P cfg async e s with
    | .running s1 => runLoop P cfg async rest s1
    | .finished err s1 => .finished err s1

/-- The loop state at entry of `performLoop`: fresh batch, empty flush
trace, dynamic parameters seeded from the configuration, and the timer armed
with `CurrentFlushInterval()` (`src/unnamed/part_004` lines 158-162,
together with `NewPipelineImpl` lines 80-82). -/
def initLoopState (P : DataProcessor T B) (cfg : PipelineConfig) : LoopState B :=
  { batch := P.initBatchData
    flushes := []
    currFlushSize := cfg.FlushSize
    currFlushInterval := cfg.FlushInterval
    timerInterval := cfg.FlushInterval
    timerArmedAt := 0
    stepIdx := 0 }

/-- The run-lifecycle state of a pipeline instance: the atomic `running`
flag, the current `runDone` channel (identified by a generation number,
`none` for `nil`), the next fresh channel identity, and the identities of
channels that have been closed. -/
structure PipeState where
  running : Nat
  runDone : Option Nat
  doneGen : Nat
  closedDones : List Nat
  deriving DecidableEq, Repr

/-- Result of a `performLoop` call: either the loop is still running (events
exhausted before a terminal one), or it returned with an error value, the
flush trace of the run, and the post-run instance state. -/
inductive PerformOutcome (B : Type) where
  | stillRunning (s : LoopState B) (ps : PipeState)
  | returned (err : Option GoError) (flushes : List (FlushCall B)) (ps : PipeState)
  deriving DecidableEq, Repr

/-- `performLoop` including its lifecycle guard (`src/unnamed/part_004`
lines 129-156): a compare-and-swap of `running` from 0 to 1 that on failure
returns `ErrAlreadyRunning` immediately; on success the run captures (or
creates) its `runDone`, consumes the events, and the deferred epilogue
stores `running = 0`, closes the captured channel and clears the instance
pointer when it still matches. -/
def performLoop (P : DataProcessor T B) (cfg : PipelineConfig) (async : Bool)
    (ps : PipeState) (events : List (Event T)) : PerformOutcome B :=
  if ps.running ≠ 0 then
    .returned (some .alreadyRunning) [] ps
  else
    let myDone := match ps.runDone with
      | some d => d
      | none => ps.doneGen
    let ps1 : PipeState :=
      { ps with running := 1
                runDone := some myDone
                doneGen := match ps.runDone with
                  | some _ => ps.doneGen
                  | none => ps.doneGen + 1 }
    match runLoop P cfg async events (initLoopState P cfg) with
    | .running s => .stillRunning s ps1
    | .finished err s =>
      let ps2 : PipeState :=
        { ps1 with running := 0
                   closedDones := ps1.closedDones ++ [myDone]
                   runDone := if ps1.runDone = some myDone then none else ps1.runDone }
      .returned err s.flushes ps2

/-- `SyncPerform` delegates to `performLoop` with `async = false`
(`src/unnamed/part_004` lines 113-116). -/
def SyncPerform (P : DataProcessor T B) (cfg : PipelineConfig)
    (ps : PipeState) (events : List (Event T)) : PerformOutcome B :=
  performLoop P cfg false ps events

/-- `AsyncPerform` delegates to `performLoop` with `async = true`
(`src/unnamed/part_004` lines 102-105). -/
def AsyncPerform (P : DataProcessor T B) (cfg : PipelineConfig)
    (ps : PipeState) (events : List (Event T)) : PerformOutcome B :=
  performLoop P cfg true ps events

/-- The error-channel state: `cap = none` while the channel is still `nil`
(the `sync.Once` has not fired), `cap = some n` once initialized with buffer
capacity `n`; `buf` is the buffered, unconsumed content. -/
structure ErrChanState where
  cap : Option Nat
  buf : List GoError
  deriving DecidableEq, Repr

/-- `defaultErrBufSize` (`src/unnamed/part_004` lines 338-341):
`int((FlushSize + BufferSize - 1) / BufferSize)` in `uint32` arithmetic,
written with an explicit wrap-around of the numerator modulo `2^32`. -/
def defaultErrBufSize (cfg : PipelineConfig) : Nat :=
  ((cfg.FlushSize + cfg.BufferSize + (2 ^ 32 - 1)) % 2 ^ 32) / cfg.BufferSize

/-- `ErrorChan` (`src/unnamed/part_004` lines 422-431): a `sync.Once`
lazily creates the channel, taking the caller's `size` when positive and the
computed default otherwise; once created the state is returned unchanged. -/
def ErrorChan (cfg : PipelineConfig) (s : ErrChanState) (size : Int) :
    ErrChanState :=
  match s.cap with
  | some _ => s
  | none =>
    let n : Nat := if size ≤ 0 then defaultErrBufSize cfg else size.toNat
    { s with cap := some n }

/-- Observable actions around a flush: the `metrics.Flush` callback, a
successful non-blocking send of an error into the error channel, the
`metrics.ErrorDropped` callback on a full buffer, and the `metrics.Error`
callback. -/
inductive HookEvent where
  | flushMetric (items : Nat) (durNs : Duration)
  | errorSent (e : GoError)
  | errorDropped
  | errorMetric (e : GoError)
  deriving DecidableEq, Repr

/-- `safeErrorSend` (`src/unnamed/part_004` lines 348-364): a no-op on
`nil`; otherwise ensure the channel is initialized via `ErrorChan(0)`, then
send non-blockingly — on a full buffer the error is dropped and
`metrics.ErrorDropped()` is invoked when a metrics hook is injected.
Returns the new channel state and the observable events in order. -/
def safeErrorSend (cfg : PipelineConfig) (metricsPresent : Bool)
    (s : ErrChanState) (err : Option GoError) : ErrChanState × List HookEvent :=
  match err with
  | none => (s, [])
  | some e =>
    let s1 := ErrorChan cfg s 0
    if s1.buf.length < s1.cap.getD 0 then
      ({ s1 with buf := s1.buf ++ [e] }, [.errorSent e])
    else
      (s1, if metricsPresent then [.errorDropped] else [])

/-- `flushWithErrorChan` (`src/unnamed/part_004` lines 307-335), given the
batch size, the measured duration and the user flush function's result:
invoke `metrics.Flush` when a hook is injected; then, on a non-nil error,
forward it through `safeErrorSend` and afterwards invoke `metrics.Error`.
Returns the new channel state and the observable events in order. -/
def flushWithErrorChan (cfg : PipelineConfig) (metricsPresent : Bool)
    (s : ErrChanState) (items : Nat) (durNs : Duration)
    (flushResult : Option GoError) : ErrChanState × List HookEvent :=
  let ev1 : List HookEvent :=
    if metricsPresent then [.flushMetric items durNs] else []
  match flushResult with
  | none => (s, ev1)
  | some e =>
    let r := safeErrorSend cfg metricsPresent s (some e)
    (r.1, ev1 ++ r.2 ++ (if metricsPresent then [.errorMetric e] else []))

/-- The dynamic parameters held in atomics on the instance
(`src/unnamed/part_004` lines 42-43). -/
structure PipelineDyn where
  currFlushSize : Nat
  currFlushInterval : Duration
  deriving DecidableEq, Repr

/-- `CurrentFlushSize` (`src/unnamed/part_004` lines 484-486). -/
def CurrentFlushSize (p : PipelineDyn) : Nat := p.currFlushSize

/-- `UpdateFlushSize` (`src/unnamed/part_004` lines 488-493): clamp 0 to 1,
then atomically store. -/
def UpdateFlushSize (p : PipelineDyn) (n : Nat) : PipelineDyn :=
  { p with currFlushSize := if n = 0 then 1 else n }

/-- `StandardPipelineWithPool.isBatchFull` (`src/unnamed/part_001`
lines 1604-1606): `len(batchData.([]T)) >= int(p.CurrentFlushSize())`. -/
def isBatchFullWithPool {T : Type} (p : PipelineDyn) (b : List T) : Bool :=
  decide (b.length ≥ CurrentFlushSize p)

/-- A list of loop events none of which makes the loop return. -/
def nonTerminal (events : List (Event T)) : Prop :=
  ∀ e ∈ events, isTerminal e = false

/-- The loop state reached by consuming a sequence of events, ignoring
termination. -/
def stepsFold (P : DataProcessor T B) (cfg : PipelineConfig) (async : Bool)
    (events : List (Event T)) (s : LoopState B) : LoopState B :=
  events.foldl (fun st e => stepState (loopStep P cfg async e st)) s

/-- Lookup in the association-list view of a Go map. -/
def goLookup {T : Type} (m : List (String × T)) (k : String) : Option T :=
  (m.find? (fun p => p.1 == k)).map (fun p => p.2)

/-- The latest item of `items` whose key is `k`: the first match when
scanning the sequence of appends backwards. -/
def lastWithKey {T : Type} (getKey : T → String) (items : List T)
    (k : String) : Option T :=
  items.reverse.find? (fun x => getKey x == k)

/-- The batch obtained by consuming `items` in order into an initially empty
deduplicated batch. -/
def dedupBatchOf {T : Type} (getKey : T → String) (items : List T) :
    List (String × T) :=
  items.foldl (dedupProcessor T getKey).addToBatch
    (dedupProcessor T getKey).initBatchData

/-- The return value of the loop, when it has returned. -/
def loopReturn : StepResult B → Option (Option GoError)
  | .running _ => none
  | .finished e _ => some e

/-- The flush trace carried by a step result. -/
def loopFlushes (r : StepResult B) : List (FlushCall B) :=
  (stepState r).flushes

/-- The configuration of scenario S1 of the spec: `BufferSize = 100`,
`FlushSize = 3`, `FlushInterval = 10s`, every other knob at its zero
value. -/
def cfgS1 : PipelineConfig :=
  { BufferSize := 100
    FlushSize := 3
    FlushInterval := 10000000000
    DrainOnCancel := false
    DrainGracePeriod := 0
    FinalFlushOnCloseTimeout := 0
    MaxConcurrentFlushes := 0 }

/-- The event sequence of scenario S1: send 1..7, then close the input
channel. -/
def eventsS1 : List (Event Nat) :=
  [.recv 1, .recv 2, .recv 3, .recv 4, .recv 5, .recv 6, .recv 7, .closed]

/-- A drain-enabled configuration used to exercise the cancel paths:
`DrainOnCancel = true`, `DrainGracePeriod = 200ms`, `FlushSize = 1000`. -/
def cfgDrain : PipelineConfig :=
  { BufferSize := 100
    FlushSize := 1000
    FlushInterval := 10000000000
    DrainOnCancel := true
    DrainGracePeriod := 200 * millisecond
    FinalFlushOnCloseTimeout := 0
    MaxConcurrentFlushes := 0 }

/-- A non-terminal event leaves the loop running, with the state given by
`stepState`. -/
theorem loopStep_run_of_nonterminal (P : DataProcessor T B)
    (cfg : PipelineConfig) (async : Bool) (e : Event T) (s : LoopState B)
    (h : isTerminal e = false) :
    loopStep P cfg async e s = .running (stepState (loopStep P cfg async e s)) := by
  cases e with
  | recv x => simp only [loopStep]; split <;> rfl
  | closed => simp [isTerminal] at h
  | timerFire => rfl
  | nudge => rfl
  | cancel buffered => simp [isTerminal] at h

/-- Consuming a non-terminal prefix just advances the loop state. -/
theorem runLoop_append_of_nonterminal (P : DataProcessor T B)
    (cfg : PipelineConfig) (async : Bool) (pre rest : List (Event T))
    (s : LoopState B) (h : nonTerminal pre) :
    runLoop P cfg async (pre ++ rest) s
      = runLoop P cfg async rest (stepsFold P cfg async pre s) := by
  induction pre generalizing s with
  | nil => simp [stepsFold]
  | cons e pre ih =>
    have he : isTerminal e = false := h e (List.mem_cons_self e pre)
    have hpre : nonTerminal pre := fun x hx => h x (List.mem_cons_of_mem e hx)
    rw [List.cons_append, runLoop, loopStep_run_of_nonterminal P cfg async e s he]
    show runLoop P cfg async (pre ++ rest) (stepState (loopStep P cfg async e s)) = _
    rw [ih (stepState (loopStep P cfg async e s)) hpre]
    simp [stepsFold]

/-- C3: running the ordered variant synchronously with `FlushSize = 3` on
the items `[1,2,3,4,5,6,7]` followed by channel close yields exactly the
three flushes `[1,2,3]`, `[4,5,6]`, `[7]` in order (the last one being the
final flush under a background context, the others synchronous size-trigger
flushes under the parent context), and the loop returns `nil`. -/
theorem claim_C3_scenario_S1_size_trigger :
    loopReturn (runLoop (standardProcessor Nat) cfgS1 false eventsS1
        (initLoopState (standardProcessor Nat) cfgS1)) = some none
    ∧ loopFlushes (runLoop (standardProcessor Nat) cfgS1 false eventsS1
        (initLoopState (standardProcessor Nat) cfgS1))
      = [⟨.parent, false, [1, 2, 3]⟩, ⟨.parent, false, [4, 5, 6]⟩,
         ⟨.background, false, [7]⟩] := by
  constructor <;> rfl

/-- C9: after `UpdateFlushSize n`, `CurrentFlushSize` reads back the stored
value (`n` clamped to at least 1), and the pool variant's `isBatchFull`
compares the batch length against exactly that updated value, whatever the
previous flush size was. -/
theorem claim_C9_update_flush_size (p : PipelineDyn) (n : Nat) {T : Type}
    (b : List T) :
    CurrentFlushSize (UpdateFlushSize p n) = (if n = 0 then 1 else n)
    ∧ isBatchFullWithPool (UpdateFlushSize p n) b
        = decide (b.length ≥ (if n = 0 then 1 else n)) := by
  constructor <;> simp [CurrentFlushSize, UpdateFlushSize, isBatchFullWithPool]

/-- C10: the item-received branch never touches the timer (its armed
interval and arming instant are unchanged, also when a size-triggered flush
is dispatched), while the timer-fire and nudge branches re-arm the timer
with the current interval clamped to 50ms when non-positive. -/
theorem claim_C10_timer_management (P : DataProcessor T B)
    (cfg : PipelineConfig) (async : Bool) (s : LoopState B) (x : T) :
    ((stepState (loopStep P cfg async (.recv x) s)).timerInterval
        = s.timerInterval
      ∧ (stepState (loopStep P cfg async (.recv x) s)).timerArmedAt
        = s.timerArmedAt)
    ∧ ((stepState (loopStep P cfg async .timerFire s)).timerInterval
        = clampInterval s.currFlushInterval
      ∧ (stepState (loopStep P cfg async .timerFire s)).timerArmedAt
        = s.stepIdx + 1)
    ∧ ((stepState (loopStep P cfg async .nudge s)).timerInterval
        = clampInterval s.currFlushInterval
      ∧ (stepState (loopStep P cfg async .nudge s)).timerArmedAt
        = s.stepIdx + 1)
    ∧ (∀ d : Duration, clampInterval d = if d ≤ 0 then 50 * millisecond else d) := by
  refine ⟨⟨?_, ?_⟩, ⟨?_, ?_⟩, ⟨?_, ?_⟩, fun d => rfl⟩ <;>
    simp only [loopStep] <;> first | rfl | (split <;> rfl)

/-- C6: `safeErrorSend` is a no-op on `nil`; on a non-nil error it
initializes the error channel if needed and sends non-blockingly, appending
to the buffer when there is room and otherwise dropping the error with an
`ErrorDropped` metrics callback exactly when a hook is injected. -/
theorem claim_C6_safe_error_send (cfg : PipelineConfig)
    (metricsPresent : Bool) (s : ErrChanState) (e : GoError) :
    safeErrorSend cfg metricsPresent s none = (s, [])
    ∧ ((safeErrorSend cfg metricsPresent s (some e)).1.cap).isSome = true
    ∧ safeErrorSend cfg metricsPresent s (some e)
        = (if (ErrorChan cfg s 0).buf.length < (ErrorChan cfg s 0).cap.getD 0
           then ({ ErrorChan cfg s 0 with buf := (ErrorChan cfg s 0).buf ++ [e] },
                 [HookEvent.errorSent e])
           else (ErrorChan cfg s 0,
                 if metricsPresent then [HookEvent.errorDropped] else [])) := by
  refine ⟨rfl, ?_, ?_⟩
  · simp only [safeErrorSend]
    split <;> cases hc : s.cap <;> simp [ErrorChan, hc]
  · simp only [safeErrorSend]

/-- C8 counterexample: with a metrics hook injected, an empty error channel
of capacity 1 and a failing flush, the observable order is `metrics.Flush`,
then the successful forward into the error channel, and only then
`metrics.Error` — so `metrics.Error` is not invoked before the error is
forwarded, contradicting the claim at this input. -/
theorem claim_C8_counterexample :
    (flushWithErrorChan
        { BufferSize := 1, FlushSize := 1, FlushInterval := 0,
          DrainOnCancel := false, DrainGracePeriod := 0,
          FinalFlushOnCloseTimeout := 0, MaxConcurrentFlushes := 0 }
        true ⟨none, []⟩ 1 0 (some (.userError 0))).2
      = [HookEvent.flushMetric 1 0, HookEvent.errorSent (.userError 0),
         HookEvent.errorMetric (.userError 0)]
    ∧ ¬ ((flushWithErrorChan
        { BufferSize := 1, FlushSize := 1, FlushInterval := 0,
          DrainOnCancel := false, DrainGracePeriod := 0,
          FinalFlushOnCloseTimeout := 0, MaxConcurrentFlushes := 0 }
        true ⟨none, []⟩ 1 0 (some (.userError 0))).2.indexOf
          (HookEvent.errorMetric (.userError 0))
        < (flushWithErrorChan
        { BufferSize := 1, FlushSize := 1, FlushInterval := 0,
          DrainOnCancel := false, DrainGracePeriod := 0,
          FinalFlushOnCloseTimeout := 0, MaxConcurrentFlushes := 0 }
        true ⟨none, []⟩ 1 0 (some (.userError 0))).2.indexOf
          (HookEvent.errorSent (.userError 0))) := by
  constructor <;> decide

/-- C8 amended: for every flush whose user function returns a non-nil error
and with a metrics hook injected, the observable order is `metrics.Flush`,
then the forwarding attempt through `safeErrorSend` (a successful send, or a
drop), and then `metrics.Error` — i.e. `metrics.Error` is invoked after the
error is forwarded, not before. -/
theorem claim_C8_amended_metrics_error_after_forward (cfg : PipelineConfig)
    (s : ErrChanState) (items : Nat) (durNs : Duration) (e : GoError) :
    (flushWithErrorChan cfg true s items durNs (some e)).2
      = [HookEvent.flushMetric items durNs,
         (if (ErrorChan cfg s 0).buf.length < (ErrorChan cfg s 0).cap.getD 0
          then HookEvent.errorSent e else HookEvent.errorDropped),
         HookEvent.errorMetric e] := by
  simp only [flushWithErrorChan, safeErrorSend]
  by_cases hroom :
      (ErrorChan cfg s 0).buf.length < (ErrorChan cfg s 0).cap.getD 0 <;>
    simp [hroom]

/-- C7: when a run is already active (`running = 1`), every further call to
`performLoop` — through `SyncPerform` or `AsyncPerform` — fails its
compare-and-swap and returns `ErrAlreadyRunning` immediately, with an empty
flush trace and the instance state (including `runDone` and the closed-done
history) untouched. -/
theorem claim_C7_already_running (P : DataProcessor T B)
    (cfg : PipelineConfig) (ps : PipeState) (events : List (Event T))
    (h : ps.running ≠ 0) :
    SyncPerform P cfg ps events
        = .returned (some GoError.alreadyRunning) [] ps
    ∧ AsyncPerform P cfg ps events
        = .returned (some GoError.alreadyRunning) [] ps
    ∧ errorsIs GoError.alreadyRunning GoError.alreadyRunning = true := by
  refine ⟨?_, ?_, rfl⟩ <;> simp [SyncPerform, AsyncPerform, performLoop, h]

/-- C7 witness: a concrete instance with `running = 1` observes the
rejection. -/
theorem claim_C7_already_running_witness :
    SyncPerform (standardProcessor Nat) cfgS1
        ⟨1, none, 0, []⟩ [Event.recv 5, Event.closed]
      = .returned (some GoError.alreadyRunning) [] ⟨1, none, 0, []⟩
    ∧ AsyncPerform (standardProcessor Nat) cfgS1
        ⟨1, none, 0, []⟩ [Event.recv 5, Event.closed]
      = .returned (some GoError.alreadyRunning) [] ⟨1, none, 0, []⟩
    ∧ errorsIs GoError.alreadyRunning GoError.alreadyRunning = true :=
  claim_C7_already_running (standardProcessor Nat) cfgS1
    ⟨1, none, 0, []⟩ [Event.recv 5, Event.closed] (by decide)

/-- Overwriting the binding of key `k` does not change lookups for other
keys. -/
theorem find?_map_overwrite_ne {T : Type} (m : List (String × T))
    (k k2 : String) (v : T) (hne : k2 ≠ k) :
    (m.map (fun p => if p.1 == k then (k, v) else p)).find?
        (fun p => p.1 == k2)
      = m.find? (fun p => p.1 == k2) := by
  induction m with
  | nil => rfl
  | cons p m ih =>
    by_cases hpk : (p.1 == k) = true
    · have h1 : ((k : String) == k2) = false := by
        simp only [beq_eq_false_iff_ne, ne_eq]
        exact fun h => hne h.symm
      have h2 : (p.1 == k2) = false := by rw [eq_of_beq hpk]; exact h1
      simpa [List.map_cons, hpk, List.find?, h1, h2, -List.find?_map] using ih
    · by_cases hp2 : (p.1 == k2) = true
      · simp [List.map_cons, hpk, List.find?, hp2, -List.find?_map]
      · simpa [List.map_cons, hpk, List.find?, hp2, -List.find?_map] using ih

/-- After overwriting a present key `k`, looking `k` up finds the new
binding. -/
theorem find?_map_overwrite_self {T : Type} (m : List (String × T))
    (k : String) (v : T) (hany : (m.any fun p => p.1 == k) = true) :
    (m.map (fun p => if p.1 == k then (k, v) else p)).find?
        (fun p => p.1 == k)
      = some (k, v) := by
  induction m with
  | nil => simp at hany
  | cons p m ih =>
    by_cases hpk : (p.1 == k) = true
    · simp [List.map_cons, hpk, List.find?, -List.find?_map]
    · have htail : (m.any fun p => p.1 == k) = true := by
        simpa [hpk] using hany
      simpa [List.map_cons, hpk, List.find?, -List.find?_map] using ih htail

/-- Lookup after a Go map assignment: the assigned key maps to the new
value, every other key is unaffected. -/
theorem goLookup_mapAssign {T : Type} (m : List (String × T))
    (k k2 : String) (v : T) :
    goLookup (mapAssign m k v) k2
      = if k2 = k then some v else goLookup m k2 := by
  by_cases hany : (m.any fun p => p.1 == k) = true
  · have hmap : mapAssign m k v
        = m.map (fun p => if p.1 == k then (k, v) else p) := by
      simp [mapAssign, hany]
    by_cases hk2 : k2 = k
    · subst hk2
      unfold goLookup
      rw [hmap, find?_map_overwrite_self m k2 v hany]
      simp
    · unfold goLookup
      rw [hmap, find?_map_overwrite_ne m k k2 v hk2, if_neg hk2]
  · rw [Bool.not_eq_true] at hany
    have habs : ∀ p ∈ m, (p.1 == k) = false := by
      intro p hp
      cases hc : (p.1 == k) with
      | false => rfl
      | true =>
        have hm : (m.any fun q => q.1 == k) = true :=
          List.any_eq_true.2 ⟨p, hp, hc⟩
        rw [hany] at hm
        exact hm.symm
    have hmap : mapAssign m k v = m ++ [(k, v)] := by
      simp [mapAssign, hany]
    unfold goLookup
    rw [hmap, List.find?_append]
    by_cases hk2 : k2 = k
    · subst hk2
      have hnone : m.find? (fun p => p.1 == k2) = none :=
        List.find?_eq_none.2 (fun p hp => by simp [habs p hp])
      rw [hnone]
      simp [List.find?]
    · have hsingle : (((k, v) : String × T).1 == k2) = false := by
        simp only [beq_eq_false_iff_ne, ne_eq]
        exact fun h => hk2 h.symm
      rw [if_neg hk2]
      simp [List.find?, hsingle]

/-- A Go map assignment preserves distinctness of the keys. -/
theorem keys_nodup_mapAssign {T : Type} (m : List (String × T))
    (k : String) (v : T) (h : (m.map Prod.fst).Nodup) :
    ((mapAssign m k v).map Prod.fst).Nodup := by
  by_cases hany : (m.any fun p => p.1 == k) = true
  · have hkeys : (mapAssign m k v).map Prod.fst = m.map Prod.fst := by
      simp only [mapAssign, hany, if_true, List.map_map]
      apply List.map_congr_left
      intro p hp
      by_cases hpk : (p.1 == k) = true
      · simp [Function.comp, hpk, (eq_of_beq hpk).symm]
      · simp [Function.comp, hpk]
    rw [hkeys]
    exact h
  · rw [Bool.not_eq_true] at hany
    have hnotin : k ∉ m.map Prod.fst := by
      intro hk
      rcases List.mem_map.1 hk with ⟨p, hp, hpk⟩
      have hm : (m.any fun q => q.1 == k) = true :=
        List.any_eq_true.2 ⟨p, hp, by simp [hpk]⟩
      rw [hany] at hm
      exact Bool.false_ne_true hm
    have hkeys : (mapAssign m k v).map Prod.fst = m.map Prod.fst ++ [k] := by
      simp [mapAssign, hany]
    rw [hkeys]
    exact h.append (List.nodup_singleton k)
      (by intro a ha hb; simp at hb; subst hb; exact absurd ha hnotin)

/-- Folding appends into a deduplicated batch keeps the keys distinct. -/
theorem dedup_fold_nodup {T : Type} (getKey : T → String) (items : List T)
    (m : List (String × T)) (h : (m.map Prod.fst).Nodup) :
    ((items.foldl (fun b x => mapAssign b (getKey x) x) m).map
        Prod.fst).Nodup := by
  induction items generalizing m with
  | nil => exact h
  | cons x rest ih => exact ih _ (keys_nodup_mapAssign m (getKey x) x h)

/-- Lookup after folding appends into a deduplicated batch: the latest
appended value with the key wins, and keys never appended are looked up in
the initial batch. -/
theorem goLookup_fold {T : Type} (getKey : T → String) (items : List T)
    (m : List (String × T)) (k : String) :
    goLookup (items.foldl (fun b x => mapAssign b (getKey x) x) m) k
      = match lastWithKey getKey items k with
        | some v => some v
        | none => goLookup m k := by
  induction items generalizing m with
  | nil => simp [lastWithKey]
  | cons x rest ih =>
    rw [List.foldl_cons, ih]
    cases hrest : lastWithKey getKey rest k with
    | some v =>
      have : lastWithKey getKey (x :: rest) k = some v := by
        unfold lastWithKey at hrest ⊢
        rw [List.reverse_cons, List.find?_append, hrest]
        rfl
      rw [this]
    | none =>
      by_cases hx : (getKey x == k) = true
      · have hk : k = getKey x := (eq_of_beq hx).symm
        have : lastWithKey getKey (x :: rest) k = some x := by
          unfold lastWithKey at hrest ⊢
          rw [List.reverse_cons, List.find?_append, hrest]
          simp [hx]
        rw [this, goLookup_mapAssign, if_pos hk]
      · have hk : k ≠ getKey x := fun h => by simp [h.symm] at hx
        have : lastWithKey getKey (x :: rest) k = none := by
          unfold lastWithKey at hrest ⊢
          rw [List.reverse_cons, List.find?_append, hrest]
          simp [hx]
        rw [this, goLookup_mapAssign, if_neg hk]

/-- C4: in the deduplicated variant, folding any sequence of appends into a
single batch yields a batch whose keys are pairwise distinct (each key
occurs at most once) and in which every key is bound to the latest value
appended with that key; appending an item whose key is already present
overwrites the prior value. -/
theorem claim_C4_dedup_last_write_wins {T : Type} (getKey : T → String)
    (items : List T) (k : String) :
    ((dedupBatchOf getKey items).map Prod.fst).Nodup
    ∧ goLookup (dedupBatchOf getKey items) k = lastWithKey getKey items k := by
  have hdef : dedupBatchOf getKey items
      = items.foldl (fun b x => mapAssign b (getKey x) x) [] := rfl
  constructor
  · rw [hdef]
    exact dedup_fold_nodup getKey items [] (by simp)
  · rw [hdef, goLookup_fold]
    cases h : lastWithKey getKey items k <;> simp [goLookup]

/-- Every flush emitted while draining the buffered items is synchronous
and runs under the drain context; there are at most as many of them as
buffered items. -/
theorem drainLoop_spec (P : DataProcessor T B) (grace : Duration) (n : Nat)
    (buf : List T) (b : B) :
    (∀ f ∈ (drainLoop P grace n buf b).2,
        f.async = false ∧ f.ctx = CtxKind.drain grace)
    ∧ (drainLoop P grace n buf b).2.length ≤ buf.length := by
  induction buf generalizing b with
  | nil => exact ⟨fun f hf => absurd hf (by simp [drainLoop]), by simp [drainLoop]⟩
  | cons v rest ih =>
    simp only [drainLoop]
    split
    · constructor
      · intro f hf
        rcases List.mem_cons.1 hf with hf | hf
        · subst hf; exact ⟨rfl, rfl⟩
        · exact (ih P.initBatchData).1 f hf
      · simpa using Nat.succ_le_succ (ih P.initBatchData).2
    · exact ⟨(ih (P.addToBatch b v)).1,
        le_trans (ih (P.addToBatch b v)).2 (Nat.le_succ rest.length)⟩

/-- C2: in every run of `performLoop` that observes the input channel
closed, the loop performs exactly one synchronous final flush of the
current batch when it is non-empty — under a deadline of
`now + FinalFlushOnCloseTimeout` when that timeout is positive and under an
uncanceled background context otherwise — performs no flush when the batch
is empty, and returns `nil`. -/
theorem claim_C2_close_final_flush (P : DataProcessor T B)
    (cfg : PipelineConfig) (async : Bool) (pre rest : List (Event T))
    (s : LoopState B) (h : nonTerminal pre) :
    (P.isBatchEmpty (stepsFold P cfg async pre s).batch = true →
      ∃ s1, runLoop P cfg async (pre ++ Event.closed :: rest) s
          = .finished none s1
        ∧ s1.flushes = (stepsFold P cfg async pre s).flushes)
    ∧ (P.isBatchEmpty (stepsFold P cfg async pre s).batch = false →
      ∃ s1, runLoop P cfg async (pre ++ Event.closed :: rest) s
          = .finished none s1
        ∧ s1.flushes = (stepsFold P cfg async pre s).flushes
            ++ [⟨closeCtx cfg, false, (stepsFold P cfg async pre s).batch⟩]) := by
  have hrw := runLoop_append_of_nonterminal P cfg async pre
    (Event.closed :: rest) s h
  constructor <;> intro hemp
  · refine ⟨{ stepsFold P cfg async pre s with
        stepIdx := (stepsFold P cfg async pre s).stepIdx + 1 }, ?_, rfl⟩
    rw [hrw]
    simp [runLoop, loopStep, hemp]
  · refine ⟨{ stepsFold P cfg async pre s with
        flushes := (stepsFold P cfg async pre s).flushes
          ++ [⟨closeCtx cfg, false, (stepsFold P cfg async pre s).batch⟩],
        stepIdx := (stepsFold P cfg async pre s).stepIdx + 1 }, ?_, rfl⟩
    rw [hrw]
    simp [runLoop, loopStep, hemp]

/-- C2 witness: sending `[1, 2]` with `FlushSize = 3` and then closing the
channel performs exactly the final background flush `[1, 2]` and returns
`nil`. -/
theorem claim_C2_close_final_flush_witness :
    ((standardProcessor Nat).isBatchEmpty
        (stepsFold (standardProcessor Nat) cfgS1 false
          [Event.recv 1, Event.recv 2]
          (initLoopState (standardProcessor Nat) cfgS1)).batch = true →
      ∃ s1, runLoop (standardProcessor Nat) cfgS1 false
          ([Event.recv 1, Event.recv 2] ++ Event.closed :: [])
          (initLoopState (standardProcessor Nat) cfgS1)
          = .finished none s1
        ∧ s1.flushes = (stepsFold (standardProcessor Nat) cfgS1 false
            [Event.recv 1, Event.recv 2]
            (initLoopState (standardProcessor Nat) cfgS1)).flushes)
    ∧ ((standardProcessor Nat).isBatchEmpty
        (stepsFold (standardProcessor Nat) cfgS1 false
          [Event.recv 1, Event.recv 2]
          (initLoopState (standardProcessor Nat) cfgS1)).batch = false →
      ∃ s1, runLoop (standardProcessor Nat) cfgS1 false
          ([Event.recv 1, Event.recv 2] ++ Event.closed :: [])
          (initLoopState (standardProcessor Nat) cfgS1)
          = .finished none s1
        ∧ s1.flushes = (stepsFold (standardProcessor Nat) cfgS1 false
            [Event.recv 1, Event.recv 2]
            (initLoopState (standardProcessor Nat) cfgS1)).flushes
          ++ [⟨closeCtx cfgS1, false,
              (stepsFold (standardProcessor Nat) cfgS1 false
                [Event.recv 1, Event.recv 2]
                (initLoopState (standardProcessor Nat) cfgS1)).batch⟩]) :=
  claim_C2_close_final_flush (standardProcessor Nat) cfgS1 false
    [Event.recv 1, Event.recv 2] [] (initLoopState (standardProcessor Nat) cfgS1)
    (by unfold nonTerminal; decide)

/-- C1: in every run of `performLoop` whose context is canceled, if
`DrainOnCancel` is false the loop returns a value `e` with
`errors.Is(e, ErrContextIsClosed)` and performs no flush after the
cancellation point; if `DrainOnCancel` is true the loop drains the
already-buffered items, performing only synchronous flushes under the
independent drain context — at most the needed mid-drain flushes plus one
final flush of a non-empty leftover batch, so at most `|buffered| + 1` in
total — and returns a joined value satisfying both
`errors.Is(_, ErrContextIsClosed)` and `errors.Is(_, ErrContextDrained)`. -/
theorem claim_C1_cancel_semantics (P : DataProcessor T B)
    (cfg : PipelineConfig) (async : Bool) (pre : List (Event T))
    (buf : List T) (rest : List (Event T)) (s : LoopState B)
    (h : nonTerminal pre) :
    (cfg.DrainOnCancel = false →
      ∃ e s1, runLoop P cfg async (pre ++ Event.cancel buf :: rest) s
          = .finished (some e) s1
        ∧ errorsIs e GoError.contextIsClosed = true
        ∧ s1.flushes = (stepsFold P cfg async pre s).flushes)
    ∧ (cfg.DrainOnCancel = true →
      ∃ e s1 newFs, runLoop P cfg async (pre ++ Event.cancel buf :: rest) s
          = .finished (some e) s1
        ∧ errorsIs e GoError.contextIsClosed = true
        ∧ errorsIs e GoError.contextDrained = true
        ∧ s1.flushes = (stepsFold P cfg async pre s).flushes ++ newFs
        ∧ (∀ f ∈ newFs, f.async = false ∧ f.ctx = CtxKind.drain (graceOf cfg))
        ∧ newFs.length ≤ buf.length + 1) := by
  have hrw := runLoop_append_of_nonterminal P cfg async pre
    (Event.cancel buf :: rest) s h
  constructor
  · intro hd
    refine ⟨GoError.contextIsClosed,
      { stepsFold P cfg async pre s with
        stepIdx := (stepsFold P cfg async pre s).stepIdx + 1 }, ?_, rfl, rfl⟩
    rw [hrw]
    simp [runLoop, loopStep, hd]
  · intro hd
    refine ⟨GoError.joined GoError.contextIsClosed GoError.contextDrained,
      { stepsFold P cfg async pre s with
        batch := (drainLoop P (graceOf cfg)
          (stepsFold P cfg async pre s).currFlushSize buf
          (stepsFold P cfg async pre s).batch).1,
        flushes := (stepsFold P cfg async pre s).flushes
          ++ ((drainLoop P (graceOf cfg)
              (stepsFold P cfg async pre s).currFlushSize buf
              (stepsFold P cfg async pre s).batch).2
            ++ (if P.isBatchEmpty (drainLoop P (graceOf cfg)
                  (stepsFold P cfg async pre s).currFlushSize buf
                  (stepsFold P cfg async pre s).batch).1
                then []
                else [⟨CtxKind.drain (graceOf cfg), false,
                  (drainLoop P (graceOf cfg)
                    (stepsFold P cfg async pre s).currFlushSize buf
                    (stepsFold P cfg async pre s).batch).1⟩])),
        stepIdx := (stepsFold P cfg async pre s).stepIdx + 1 },
      (drainLoop P (graceOf cfg) (stepsFold P cfg async pre s).currFlushSize
          buf (stepsFold P cfg async pre s).batch).2
        ++ (if P.isBatchEmpty (drainLoop P (graceOf cfg)
              (stepsFold P cfg async pre s).currFlushSize buf
              (stepsFold P cfg async pre s).batch).1
            then []
            else [⟨CtxKind.drain (graceOf cfg), false,
              (drainLoop P (graceOf cfg)
                (stepsFold P cfg async pre s).currFlushSize buf
                (stepsFold P cfg async pre s).batch).1⟩]),
      ?_, rfl, rfl, rfl, ?_, ?_⟩
    · rw [hrw]
      simp only [runLoop, loopStep, hd, if_true]
      rw [List.append_assoc]
    · intro f hf
      rcases List.mem_append.1 hf with hf | hf
      · exact (drainLoop_spec P (graceOf cfg)
          (stepsFold P cfg async pre s).currFlushSize buf
          (stepsFold P cfg async pre s).batch).1 f hf
      · by_cases hb : P.isBatchEmpty (drainLoop P (graceOf cfg)
            (stepsFold P cfg async pre s).currFlushSize buf
            (stepsFold P cfg async pre s).batch).1 = true
        · simp [hb] at hf
        · rw [if_neg hb] at hf
          rcases List.mem_singleton.1 hf with rfl
          exact ⟨rfl, rfl⟩
    · have hlen := (drainLoop_spec P (graceOf cfg)
        (stepsFold P cfg async pre s).currFlushSize buf
        (stepsFold P cfg async pre s).batch).2
      rw [List.length_append]
      have : (if P.isBatchEmpty (drainLoop P (graceOf cfg)
            (stepsFold P cfg async pre s).currFlushSize buf
            (stepsFold P cfg async pre s).batch).1
          then ([] : List (FlushCall B))
          else [⟨CtxKind.drain (graceOf cfg), false,
            (drainLoop P (graceOf cfg)
              (stepsFold P cfg async pre s).currFlushSize buf
              (stepsFold P cfg async pre s).batch).1⟩]).length ≤ 1 := by
        split <;> simp
      omega

/-- C1 witness: canceling a drain-enabled run with the items `[8, 9]` still
buffered performs the synchronous drain flush and returns the joined
error; at the same input the non-drain implication is vacuously
instantiated. -/
theorem claim_C1_cancel_semantics_witness :
    (cfgDrain.DrainOnCancel = false →
      ∃ e s1, runLoop (standardProcessor Nat) cfgDrain false
          ([] ++ Event.cancel [8, 9] :: [])
          (initLoopState (standardProcessor Nat) cfgDrain)
          = .finished (some e) s1
        ∧ errorsIs e GoError.contextIsClosed = true
        ∧ s1.flushes = (stepsFold (standardProcessor Nat) cfgDrain false []
            (initLoopState (standardProcessor Nat) cfgDrain)).flushes)
    ∧ (cfgDrain.DrainOnCancel = true →
      ∃ e s1 newFs, runLoop (standardProcessor Nat) cfgDrain false
          ([] ++ Event.cancel [8, 9] :: [])
          (initLoopState (standardProcessor Nat) cfgDrain)
          = .finished (some e) s1
        ∧ errorsIs e GoError.contextIsClosed = true
        ∧ errorsIs e GoError.contextDrained = true
        ∧ s1.flushes = (stepsFold (standardProcessor Nat) cfgDrain false []
              (initLoopState (standardProcessor Nat) cfgDrain)).flushes
            ++ newFs
        ∧ (∀ f ∈ newFs,
            f.async = false ∧ f.ctx = CtxKind.drain (graceOf cfgDrain))
        ∧ newFs.length ≤ [8, 9].length + 1) :=
  claim_C1_cancel_semantics (standardProcessor Nat) cfgDrain false []
    [8, 9] [] (initLoopState (standardProcessor Nat) cfgDrain)
    (by unfold nonTerminal; decide)

/-- C5: the first initialization of the error channel fixes its capacity —
to `size` when `size > 0`, otherwise to the ceiling of
`FlushSize / BufferSize`, which is at least 1 — and every later call
returns the same channel whatever its `size` argument. -/
theorem claim_C5_error_chan_capacity (cfg : PipelineConfig)
    (s : ErrChanState) (size : Int) (hs : s.cap = none)
    (hF : 1 ≤ cfg.FlushSize) (hB : 1 ≤ cfg.BufferSize)
    (hw : cfg.FlushSize + cfg.BufferSize ≤ 2 ^ 32) :
    (ErrorChan cfg s size).cap
        = some (if size ≤ 0 then defaultErrBufSize cfg else size.toNat)
    ∧ defaultErrBufSize cfg = cfg.FlushSize ⌈/⌉ cfg.BufferSize
    ∧ 1 ≤ defaultErrBufSize cfg
    ∧ (∀ size2 : Int,
        ErrorChan cfg (ErrorChan cfg s size) size2 = ErrorChan cfg s size) := by
  have h32 : (2 : ℕ) ^ 32 = 4294967296 := by norm_num
  have hd : defaultErrBufSize cfg
      = (cfg.FlushSize + cfg.BufferSize - 1) / cfg.BufferSize := by
    have hnum : (cfg.FlushSize + cfg.BufferSize + (2 ^ 32 - 1)) % 2 ^ 32
        = cfg.FlushSize + cfg.BufferSize - 1 := by
      rw [h32] at hw ⊢
      omega
    unfold defaultErrBufSize
    rw [hnum]
  refine ⟨by simp [ErrorChan, hs], ?_, ?_, ?_⟩
  · rw [hd, Nat.ceilDiv_eq_add_pred_div]
  · rw [hd]
    have hB0 : 0 < cfg.BufferSize := hB
    rw [Nat.le_div_iff_mul_le hB0, one_mul]
    omega
  · intro size2
    simp [ErrorChan, hs]

/-- C5 witness: with `FlushSize = 3` and `BufferSize = 100`, the first call
with `size = 0` fixes the capacity at the default
`ceil(3 / 100) = 1`, and re-calls leave the channel untouched. -/
theorem claim_C5_error_chan_capacity_witness :
    (ErrorChan cfgS1 ⟨none, []⟩ 0).cap
        = some (if (0 : Int) ≤ 0 then defaultErrBufSize cfgS1
                else (0 : Int).toNat)
    ∧ defaultErrBufSize cfgS1 = cfgS1.FlushSize ⌈/⌉ cfgS1.BufferSize
    ∧ 1 ≤ defaultErrBufSize cfgS1
    ∧ (∀ size2 : Int,
        ErrorChan cfgS1 (ErrorChan cfgS1 ⟨none, []⟩ 0) size2
          = ErrorChan cfgS1 ⟨none, []⟩ 0) :=
  claim_C5_error_chan_capacity cfgS1 ⟨none, []⟩ 0 rfl (by decide) (by decide)
    (by norm_num [cfgS1])

end GoPipeline
